import Mathlib

/-!
Shallow embedding of `instagram_extractor.py` (class `InstagramExtractor`).

Python dictionaries that the script builds and serializes are modelled by the
JSON value type `J` (field order preserved, as in Python 3.7+ dicts).  The
third-party `instagrapi` client, the `requests` download, pandas `to_csv` and
the wall clock are modelled by oracles: each external call is a field of an
oracle structure, returning `Except Err _` where the Python call can raise.
Observable side effects (sleeps, file writes, downloads, sub-calls) are
recorded in an event trace returned alongside each function's value.
-/

namespace IGX

/-- A Python exception, as classified by the `except` clauses of `login()`:
`BadPassword`, `ReloginAttemptExceeded`, `ChallengeRequired`, and the
catch-all `Exception` (which also covers the other imported instagrapi
exception classes). -/
inductive Err where
  | badPassword
  | reloginAttemptExceeded
  | challengeRequired (msg : String)
  | other (msg : String)
deriving DecidableEq, Repr

/-- A JSON-serializable Python value: the dicts/lists/scalars the script
builds (`user_data`, `post_data`, `follower_data`, `extracted_data`). -/
inductive J where
  | s (v : String)
  | n (v : Int)
  | b (v : Bool)
  | null
  | arr (elems : List J)
  | obj (fields : List (String × J))
deriving Repr

/-- Dictionary lookup (`d[k]` / `d.get(k)`): first binding of the key. -/
def lookupKey : List (String × J) → String → Option J
  | [], _ => none
  | (k', v) :: rest, k => if k' = k then some v else lookupKey rest k

/-- `data.get(k)` on a `J` value: `none` when the key is absent or the value
is not a dict. -/
def getKey : J → String → Option J
  | .obj fs, k => lookupKey fs k
  | _, _ => none

/-- Python dict assignment `d[k] = v` on the field list: replaces the value
of an existing key in place, otherwise appends the new binding at the end. -/
def setKeyFields : List (String × J) → String → J → List (String × J)
  | [], k, v => [(k, v)]
  | (k', v') :: rest, k, v =>
      if k' = k then (k', v) :: rest else (k', v') :: setKeyFields rest k v

/-- Python dict assignment `d[k] = v` on a `J` value. -/
def setKey : J → String → J → J
  | .obj fs, k, v => .obj (setKeyFields fs k v)
  | j, _, _ => j

/-- Keys of a dict value, in order (`list(d.keys())`). -/
def jKeys : J → List String
  | .obj fs => fs.map (fun f => f.1)
  | _ => []

/-- Python `len()` on the values `main` applies it to (dicts, lists, strings). -/
def pyLen : J → Nat
  | .arr l => l.length
  | .obj fs => fs.length
  | .s v => v.length
  | _ => 0

/-- Python truthiness, as used by `if data.get('posts'):`. -/
def jTruthy : J → Bool
  | .null => false
  | .s v => !(v == "")
  | .n v => !(v == 0)
  | .b v => v
  | .arr l => !l.isEmpty
  | .obj fs => !fs.isEmpty

/-- Truthiness of a `d.get(k)` result (`None` when the key is missing). -/
def optTruthy (o : Option J) : Bool :=
  match o with
  | none => false
  | some j => jTruthy j

/-- Relevant environment-derived configuration of `InstagramExtractor`:
the raw `DOWNLOAD_PHOTOS` / `DOWNLOAD_VIDEOS` variables (`os.getenv`
returns `None` when unset), `REQUEST_DELAY` after `int()` conversion, and
the `SESSION_FILE` path. -/
structure Env where
  download_photos : Option String
  download_videos : Option String
  request_delay : Int
  session_file : String

/-- Python `str.lower()` (basic-latin case mapping), applied
character-wise to the string's characters. -/
def pyLower (s : String) : String :=
  ⟨s.data.map Char.toLower⟩

/-- `os.getenv(var, 'true').lower() == 'true'`. -/
def envFlag (v : Option String) : Bool :=
  pyLower (v.getD "true") == "true"

/-- An `instagrapi` media object, restricted to the attributes the script
reads.  `taken_at` carries the `isoformat()` string when the timestamp is
present.  Attributes probed with `hasattr` / `getattr` defaults
(`caption_text`, `play_count`, `video_url`) are `Option`s, `none` meaning
the attribute is missing.  `attr_error` models a Python exception raised by
one of the unguarded dynamic attribute accesses (`media.id`, `media.code`,
`media.like_count`, ...) while the `post_data` record for this item is
built; such an exception escapes to the `try` wrapping the whole loop. -/
structure Media where
  id : Nat
  code : String
  taken_at : Option String
  media_type : Nat
  caption_text : Option String
  like_count : Nat
  comment_count : Nat
  play_count : Option Int
  thumbnail_url : Option String
  video_url : Option String
  attr_error : Bool

/-- An `instagrapi` short-user object as returned in the follower /
following mappings, restricted to the attributes the script reads.
`follower_count` / `following_count` are read via `getattr` with default 0;
`attr_error` models an exception from an unguarded attribute access while
the record is built (escaping to the surrounding `try`). -/
structure UserShort where
  pk : Nat
  username : String
  full_name : String
  is_private : Bool
  is_verified : Bool
  follower_count : Option Nat
  following_count : Option Nat
  profile_pic_url : Option String
  attr_error : Bool

/-- The `instagrapi` full-user object returned by `user_info_by_username`,
restricted to the attributes `get_user_info` reads. -/
structure RawUser where
  pk : Nat
  username : String
  full_name : String
  biography : String
  external_url : Option String
  follower_count : Nat
  following_count : Nat
  media_count : Nat
  is_private : Bool
  is_verified : Bool
  profile_pic_url : String

/-- The three collector methods `extract_user_data` dispatches to. -/
inductive Stage where
  | posts
  | followers
  | following
deriving DecidableEq, Repr

/-- One observable side effect.  Sleep durations are rationals because
`get_followers` / `get_following` sleep `self.request_delay / 2` (Python
true division).  `jsonDump` records the pretty-printed JSON document
written by `extract_user_data`; `csvWrite` a `DataFrame.to_csv` output;
`mediaFileWrite` the media file written by a successful `download_media`;
`call` marks `extract_user_data` invoking one of its collectors. -/
inductive Event where
  | sleep (duration : Rat)
  | downloadAttempt (url : String) (filename : String) (ok : Bool)
  | mediaFileWrite (filename : String)
  | loadSession (path : String)
  | clientLogin
  | dumpSession (path : String)
  | jsonDump (path : String) (doc : J)
  | csvWrite (path : String)
  | call (stage : Stage)

/-- Oracle for the `instagrapi` client calls, the `requests` download and
`datetime.now()`.  Each fallible call yields `Except Err _`; `download`
gives the outcome of `requests.get` + chunked write for a (url, filename)
pair; `nowInfo` / `nowExtract` are the two `datetime.now().isoformat()`
results taken in `get_user_info` and `extract_user_data`. -/
structure Client where
  user_info_by_username : String → Except Err RawUser
  user_id_from_username : String → Except Err Nat
  user_medias : Nat → Nat → Except Err (List Media)
  user_followers : Nat → Nat → Except Err (List (Nat × UserShort))
  user_following : Nat → Nat → Except Err (List (Nat × UserShort))
  download : String → String → Bool
  nowInfo : String
  nowExtract : String

/-- Python `str()` of an optional URL attribute: `str(None)` is `"None"`. -/
def pyStrOpt : Option String → String
  | some v => v
  | none => "None"

/-- `download_media(media_url, filename)`: attempts the HTTP fetch and
chunked write; on success the file `media/<filename>` exists and `True` is
returned, any exception is caught and `False` returned. -/
def download_media (c : Client) (media_url : String) (filename : String) :
    Bool × List Event :=
  if c.download media_url filename then
    (true, [.downloadAttempt media_url filename true, .mediaFileWrite filename])
  else
    (false, [.downloadAttempt media_url filename false])

/-- Filename `f"{username}_{media.id}.jpg"` for a photo download. -/
def jpgName (username : String) (m : Media) : String :=
  username ++ "_" ++ toString m.id ++ ".jpg"

/-- Filename `f"{username}_{media.id}.mp4"` for a video download. -/
def mp4Name (username : String) (m : Media) : String :=
  username ++ "_" ++ toString m.id ++ ".mp4"

/-- The `post_data` dict literal built for one media item (before the
download block may add `local_file`). -/
def basePostFields (m : Media) : List (String × J) :=
  [("id", .s (toString m.id)),
   ("code", .s m.code),
   ("taken_at", match m.taken_at with | some t => .s t | none => .null),
   ("media_type", .s (toString m.media_type)),
   ("caption", .s (m.caption_text.getD "")),
   ("like_count", .n m.like_count),
   ("comment_count", .n m.comment_count),
   ("play_count", .n (m.play_count.getD 0)),
   ("thumbnail_url", .s (match m.thumbnail_url with | some u => u | none => "")),
   ("resources", .arr [])]

/-- The photo block of the per-item loop: when `DOWNLOAD_PHOTOS` is enabled
and `media.media_type == 1`, download the thumbnail URL and, on success,
set `post_data['local_file']`. -/
def photoStep (c : Client) (env : Env) (username : String) (m : Media)
    (post : J) : J × List Event :=
  if envFlag env.download_photos then
    if m.media_type = 1 then
      let filename := jpgName username m
      let r := download_media c (pyStrOpt m.thumbnail_url) filename
      (if r.1 then setKey post "local_file" (.s ("media/" ++ filename)) else post,
       r.2)
    else (post, [])
  else (post, [])

/-- The video block of the per-item loop: when `DOWNLOAD_VIDEOS` is enabled
and `media.media_type == 2`, and the item has a `video_url` attribute,
download the video URL and, on success, set `post_data['local_file']`. -/
def videoStep (c : Client) (env : Env) (username : String) (m : Media)
    (post : J) : J × List Event :=
  if envFlag env.download_videos then
    if m.media_type = 2 then
      match m.video_url with
      | none => (post, [])
      | some _ =>
        let filename := mp4Name username m
        let r := download_media c (pyStrOpt m.video_url) filename
        (if r.1 then setKey post "local_file" (.s ("media/" ++ filename)) else post,
         r.2)
    else (post, [])
  else (post, [])

/-- One iteration of the `get_user_posts` loop body: sleep
`self.request_delay`, build `post_data`, run the two download blocks.
`.error` propagates an attribute-access exception to the outer `try`. -/
def processItem (c : Client) (env : Env) (username : String) (m : Media) :
    Except Err J × List Event :=
  let sleepEv : Event := .sleep (env.request_delay : Rat)
  if m.attr_error then
    (.error (.other "attribute access failed"), [sleepEv])
  else
    let r1 := photoStep c env username m (.obj (basePostFields m))
    let r2 := videoStep c env username m r1.1
    (.ok r2.1, sleepEv :: (r1.2 ++ r2.2))

/-- The final `post_data` value for one item when no exception occurs. -/
def itemPost (c : Client) (env : Env) (username : String) (m : Media) : J :=
  (videoStep c env username m
    (photoStep c env username m (.obj (basePostFields m))).1).1

/-- The `for media in medias:` loop of `get_user_posts`, accumulating
`posts_data`; an exception from any iteration aborts the loop. -/
def postLoop (c : Client) (env : Env) (username : String) :
    List Media → Except Err (List J) × List Event
  | [] => (.ok [], [])
  | m :: ms =>
    match processItem c env username m with
    | (.error e, evs) => (.error e, evs)
    | (.ok p, evs) =>
      match postLoop c env username ms with
      | (.error e, evs') => (.error e, evs ++ evs')
      | (.ok rest, evs') => (.ok (p :: rest), evs ++ evs')

/-- `get_user_posts(username, limit=100)`: resolve the user id, fetch up to
`limit` medias, process each; any exception anywhere yields `[]`. -/
def get_user_posts (c : Client) (env : Env) (username : String)
    (limit : Nat := 100) : List J × List Event :=
  match c.user_id_from_username username with
  | .error _ => ([], [])
  | .ok uid =>
    match c.user_medias uid limit with
    | .error _ => ([], [])
    | .ok medias =>
      match postLoop c env username medias with
      | (.error _, evs) => ([], evs)
      | (.ok posts, evs) => (posts, evs)

/-- The `follower_data` / `following_user_data` dict literal built from one
short-user record (the two loop bodies are textually identical). -/
def relFields (info : UserShort) : List (String × J) :=
  [("pk", .s (toString info.pk)),
   ("username", .s info.username),
   ("full_name", .s info.full_name),
   ("is_private", .b info.is_private),
   ("is_verified", .b info.is_verified),
   ("follower_count", .n (info.follower_count.getD 0)),
   ("following_count", .n (info.following_count.getD 0)),
   ("profile_pic_url",
     .s (match info.profile_pic_url with | some u => u | none => ""))]

/-- The dict built for one follower / following entry. -/
def relJson (info : UserShort) : J :=
  .obj (relFields info)

/-- The `for id, info in mapping.items():` loop shared (textually) by
`get_followers` and `get_following`: sleep `self.request_delay / 2`, build
the record, append.  An attribute-access exception aborts the loop and
escapes to the surrounding `try`. -/
def relLoop (env : Env) :
    List (Nat × UserShort) → Except Err (List J) × List Event
  | [] => (.ok [], [])
  | (_, info) :: rest =>
    let sleepEv : Event := .sleep ((env.request_delay : Rat) / 2)
    if info.attr_error then
      (.error (.other "attribute access failed"), [sleepEv])
    else
      match relLoop env rest with
      | (.error e, evs) => (.error e, sleepEv :: evs)
      | (.ok l, evs) => (.ok (relJson info :: l), sleepEv :: evs)

/-- `get_followers(username, limit=1000)`: resolve the user id, fetch the
follower mapping (modelled as the association list in the order the
platform returned it), build one record per entry; any exception yields
`[]`. -/
def get_followers (c : Client) (env : Env) (username : String)
    (limit : Nat := 1000) : List J × List Event :=
  match c.user_id_from_username username with
  | .error _ => ([], [])
  | .ok uid =>
    match c.user_followers uid limit with
    | .error _ => ([], [])
    | .ok pairs =>
      match relLoop env pairs with
      | (.error _, evs) => ([], evs)
      | (.ok l, evs) => (l, evs)

/-- `get_following(username, limit=1000)`: same shape as `get_followers`
over `user_following`. -/
def get_following (c : Client) (env : Env) (username : String)
    (limit : Nat := 1000) : List J × List Event :=
  match c.user_id_from_username username with
  | .error _ => ([], [])
  | .ok uid =>
    match c.user_following uid limit with
    | .error _ => ([], [])
    | .ok pairs =>
      match relLoop env pairs with
      | (.error _, evs) => ([], evs)
      | (.ok l, evs) => (l, evs)

/-- The `user_data` dict literal of `get_user_info`. -/
def userInfoJson (u : RawUser) (now : String) : J :=
  .obj [("pk", .s (toString u.pk)),
        ("username", .s u.username),
        ("full_name", .s u.full_name),
        ("biography", .s u.biography),
        ("external_url", match u.external_url with | some v => .s v | none => .null),
        ("follower_count", .n u.follower_count),
        ("following_count", .n u.following_count),
        ("media_count", .n u.media_count),
        ("is_private", .b u.is_private),
        ("is_verified", .b u.is_verified),
        ("profile_pic_url", .s u.profile_pic_url),
        ("extracted_at", .s now)]

/-- `get_user_info(username)`: sleep `self.request_delay`, call
`user_info_by_username`; on any exception return `None`. -/
def get_user_info (c : Client) (env : Env) (username : String) :
    Option J × List Event :=
  let evs : List Event := [.sleep (env.request_delay : Rat)]
  match c.user_info_by_username username with
  | .error _ => (none, evs)
  | .ok u => (some (userInfoJson u c.nowInfo), evs)

/-- Path `json_data/{username}_data.json` of the persisted JSON document,
relative to the output directory. -/
def jsonDataPath (username : String) : String :=
  "json_data/" ++ username ++ "_data.json"

/-- `extract_user_data(username)`: fetch the profile; if it is falsy
(`None`) return `{}` (modelled as `none`) at once; otherwise collect posts,
followers and following, assemble `extracted_data`, write it as the JSON
document, and return it. -/
def extract_user_data (c : Client) (env : Env) (username : String) :
    Option J × List Event :=
  match get_user_info c env username with
  | (none, evs) => (none, evs)
  | (some ui, evs) =>
    let rp := get_user_posts c env username
    let rf := get_followers c env username
    let rg := get_following c env username
    let data : J := .obj
      [("user_info", ui),
       ("posts", .arr rp.1),
       ("followers", .arr rf.1),
       ("following", .arr rg.1),
       ("extraction_timestamp", .s c.nowExtract)]
    (some data,
      evs ++ (Event.call .posts :: rp.2) ++ (Event.call .followers :: rf.2)
          ++ (Event.call .following :: rg.2)
          ++ [.jsonDump (jsonDataPath username) data])

/-- The four `len(...)` counts printed by `main`'s success summary:
`len(data.get('user_info', {}))`, `len(data.get('posts', []))`,
`len(data.get('followers', []))`, `len(data.get('following', []))`. -/
def summaryCounts (data : J) : Nat × Nat × Nat × Nat :=
  (pyLen ((getKey data "user_info").getD (.obj [])),
   pyLen ((getKey data "posts").getD (.arr [])),
   pyLen ((getKey data "followers").getD (.arr [])),
   pyLen ((getKey data "following").getD (.arr [])))

/-- Oracle for the three `pd.DataFrame(...).to_csv(...)` calls of
`generate_csv_reports` (DataFrame construction and write collapsed into one
fallible call per category). -/
structure CsvOracle where
  postsCsv : Except Err Unit
  followersCsv : Except Err Unit
  followingCsv : Except Err Unit

/-- One category block of `generate_csv_reports`: when the `data.get(...)`
value is truthy, run the DataFrame/`to_csv` call, recording the written
file on success and propagating an exception. -/
def csvCat (cond : Bool) (r : Except Err Unit) (path : String) :
    Except Err Unit × List Event :=
  if cond then
    match r with
    | .ok _ => (.ok (), [.csvWrite path])
    | .error e => (.error e, [])
  else (.ok (), [])

/-- Sequencing of the category blocks inside the `try`: an exception skips
the remaining blocks. -/
def seqE (a : Except Err Unit × List Event)
    (k : Unit → Except Err Unit × List Event) : Except Err Unit × List Event :=
  match a with
  | (.error e, t) => (.error e, t)
  | (.ok _, t) => let b := k (); (b.1, t ++ b.2)

/-- The `try` body of `generate_csv_reports`: posts, followers, following
in order. -/
def csvBody (o : CsvOracle) (username : String) (data : J) :
    Except Err Unit × List Event :=
  seqE (csvCat (optTruthy (getKey data "posts")) o.postsCsv
        (username ++ "_posts.csv")) (fun _ =>
  seqE (csvCat (optTruthy (getKey data "followers")) o.followersCsv
        (username ++ "_followers.csv")) (fun _ =>
  csvCat (optTruthy (getKey data "following")) o.followingCsv
        (username ++ "_following.csv")))

/-- `generate_csv_reports(username, data)`: the body runs under a
catch-all `except Exception` that logs and returns normally, so the
function always returns (`.ok` with the trace of files actually written);
an `.error` result would model an exception escaping to the caller. -/
def generate_csv_reports (o : CsvOracle) (username : String) (data : J) :
    Except Err (List Event) :=
  match csvBody o username data with
  | (.ok _, t) => .ok t
  | (.error _, t) => .ok t

/-- Oracle for the client calls made by `login()`:  whether the session
file exists, and the outcomes of `load_settings`, the session-reuse
`client.login`, the fresh `client.login`, and `dump_settings`. -/
structure LoginOracle where
  session_file_exists : Bool
  load_settings : Except Err Unit
  session_login : Except Err Unit
  fresh_login : Except Err Unit
  dump_settings : Except Err Unit

/-- The first `try` of `login()`: if the session file exists, load it and
log in; `.ok true` models `return True`, `.ok false` falling through the
`if`, `.error` an exception reaching the `except`. -/
def loginAttempt1 (o : LoginOracle) (env : Env) :
    Except Err Bool × List Event :=
  if o.session_file_exists then
    match o.load_settings with
    | .error e => (.error e, [.loadSession env.session_file])
    | .ok _ =>
      match o.session_login with
      | .error e => (.error e, [.loadSession env.session_file, .clientLogin])
      | .ok _ => (.ok true, [.loadSession env.session_file, .clientLogin])
  else (.ok false, [])

/-- `login()`: attempt session reuse (any exception there is caught and
logged as a warning), then fresh login + `dump_settings`, with the four
`except` clauses (`BadPassword`, `ReloginAttemptExceeded`,
`ChallengeRequired`, catch-all `Exception`) each returning `False`.  The
result is `Except`-valued so that an uncaught exception would show up as
`.error`; totality of the handlers is what keeps every path `.ok`. -/
def login (o : LoginOracle) (env : Env) : Except Err (Bool × List Event) :=
  let a1 :=
    match loginAttempt1 o env with
    | (.error _, t) => (false, t)
    | (.ok b, t) => (b, t)
  if a1.1 then .ok (true, a1.2)
  else
    match o.fresh_login with
    | .error e =>
      match e with
      | .badPassword => .ok (false, a1.2 ++ [.clientLogin])
      | .reloginAttemptExceeded => .ok (false, a1.2 ++ [.clientLogin])
      | .challengeRequired _ => .ok (false, a1.2 ++ [.clientLogin])
      | .other _ => .ok (false, a1.2 ++ [.clientLogin])
    | .ok _ =>
      match o.dump_settings with
      | .error e =>
        match e with
        | .badPassword => .ok (false, a1.2 ++ [.clientLogin])
        | .reloginAttemptExceeded => .ok (false, a1.2 ++ [.clientLogin])
        | .challengeRequired _ => .ok (false, a1.2 ++ [.clientLogin])
        | .other _ => .ok (false, a1.2 ++ [.clientLogin])
      | .ok _ =>
        .ok (true, a1.2 ++ [.clientLogin, .dumpSession env.session_file])

/-- Recognizer for `downloadAttempt` events. -/
def isDownloadAttempt : Event → Bool
  | .downloadAttempt _ _ _ => true
  | _ => false

/-- Recognizer for the `client.login` call event. -/
def isClientLogin : Event → Bool
  | .clientLogin => true
  | _ => false

/-- The trace of one post-loop iteration. -/
def itemEvents (c : Client) (env : Env) (username : String) (m : Media) :
    List Event :=
  (processItem c env username m).2

/-! ## Concrete fixtures used by the witnesses -/

/-- Fixture: the default-configuration environment
(`REQUEST_DELAY=2`, toggles unset, default session file path). -/
def envW : Env :=
  { download_photos := none, download_videos := none, request_delay := 2,
    session_file := "instagram_session.json" }

/-- Fixture: a client whose profile fetch fails. -/
def clientProfileDown : Client :=
  { user_info_by_username := fun _ => .error (.other "rate limited"),
    user_id_from_username := fun _ => .ok 7,
    user_medias := fun _ _ => .ok [],
    user_followers := fun _ _ => .ok [],
    user_following := fun _ _ => .ok [],
    download := fun _ _ => true,
    nowInfo := "2026-10-12T00:00:00",
    nowExtract := "2026-10-12T00:00:01" }

/-- Fixture: the profile record of the witness account. -/
def rawW : RawUser :=
  { pk := 42, username := "w", full_name := "W", biography := "",
    external_url := none, follower_count := 1, following_count := 2,
    media_count := 0, is_private := false, is_verified := true,
    profile_pic_url := "http://pic" }

/-- Fixture: a client where every call succeeds with empty collections. -/
def clientOkEmpty : Client :=
  { user_info_by_username := fun _ => .ok rawW,
    user_id_from_username := fun _ => .ok 42,
    user_medias := fun _ _ => .ok [],
    user_followers := fun _ _ => .ok [],
    user_following := fun _ _ => .ok [],
    download := fun _ _ => true,
    nowInfo := "t0",
    nowExtract := "t1" }

/-- Fixture: a photo media item whose record builds cleanly. -/
def mediaPhoto : Media :=
  { id := 11, code := "AA", taken_at := some "2026-01-01T00:00:00",
    media_type := 1, caption_text := some "hi", like_count := 3,
    comment_count := 1, play_count := none,
    thumbnail_url := some "http://t/11.jpg", video_url := none,
    attr_error := false }

/-- Fixture: a video media item whose record builds cleanly. -/
def mediaVideo : Media :=
  { id := 13, code := "BB", taken_at := none, media_type := 2,
    caption_text := none, like_count := 5, comment_count := 2,
    play_count := some 99, thumbnail_url := some "http://t/13.jpg",
    video_url := some "http://v/13.mp4", attr_error := false }

/-- Fixture: a media item whose record building raises mid-loop. -/
def mediaBroken : Media :=
  { mediaPhoto with id := 12, attr_error := true }

/-- Fixture: a client returning a good item followed by a broken item. -/
def clientPartialFail : Client :=
  { clientOkEmpty with
    user_medias := fun _ _ => .ok [mediaPhoto, mediaBroken] }

/-- Fixture: a client returning one photo and one video item, whose
download of the photo fails and of the video succeeds. -/
def clientTwoMedias : Client :=
  { clientOkEmpty with
    user_medias := fun _ _ => .ok [mediaPhoto, mediaVideo],
    download := fun url _ => url != "http://t/11.jpg" }

/-- Fixture: a follower entry for the witness account. -/
def followerA : UserShort :=
  { pk := 501, username := "a", full_name := "A", is_private := false,
    is_verified := false, follower_count := some 10, following_count := none,
    profile_pic_url := none, attr_error := false }

/-- Fixture: a client returning one follower and a failing following call. -/
def clientOneFollower : Client :=
  { clientOkEmpty with
    user_followers := fun _ _ => .ok [(501, followerA)],
    user_following := fun _ _ => .error (.other "private account") }

/-- Fixture: a login oracle where session reuse succeeds. -/
def oracleReuseOk : LoginOracle :=
  { session_file_exists := true, load_settings := .ok (),
    session_login := .ok (), fresh_login := .ok (),
    dump_settings := .ok () }

/-- Fixture: a login oracle where both login attempts fail. -/
def oracleAllFail : LoginOracle :=
  { session_file_exists := false, load_settings := .ok (),
    session_login := .ok (), fresh_login := .error .badPassword,
    dump_settings := .ok () }

/-- Fixture: a CSV oracle where every `to_csv` call succeeds. -/
def csvAllOk : CsvOracle :=
  { postsCsv := .ok (), followersCsv := .ok (), followingCsv := .ok () }

/-- Fixture: extraction data with a non-empty posts list and empty
follower / following lists. -/
def dataPostsOnly : J :=
  .obj [("user_info", .obj []),
        ("posts", .arr [.obj [("id", .s "11")]]),
        ("followers", .arr []),
        ("following", .arr []),
        ("extraction_timestamp", .s "t1")]

/-- Fixture: the document persisted by the witness extraction run. -/
def dataW : J :=
  .obj [("user_info", userInfoJson rawW "t0"),
        ("posts", .arr []),
        ("followers", .arr []),
        ("following", .arr []),
        ("extraction_timestamp", .s "t1")]

/-- Fixture: the trace of the witness extraction run. -/
def traceW : List Event :=
  [.sleep ((2 : Int) : Rat), .call .posts, .call .followers,
   .call .following, .jsonDump (jsonDataPath "w") dataW]

/-! ## Basic lemmas about the dict operations -/

theorem lookupKey_setKeyFields_self (fs : List (String × J)) (k : String) (v : J) :
    lookupKey (setKeyFields fs k v) k = some v := by
  induction fs with
  | nil => simp [setKeyFields, lookupKey]
  | cons hd tl ih =>
    obtain ⟨k', v'⟩ := hd
    by_cases h : k' = k
    · simp [setKeyFields, h, lookupKey]
    · simp [setKeyFields, h, lookupKey, ih]

theorem lookupKey_setKeyFields_ne (fs : List (String × J)) (k k' : String) (v : J)
    (h : k' ≠ k) :
    lookupKey (setKeyFields fs k v) k' = lookupKey fs k' := by
  have hk : ¬(k = k') := fun hc => h hc.symm
  induction fs with
  | nil => simp [setKeyFields, lookupKey, hk]
  | cons hd tl ih =>
    obtain ⟨k₀, v₀⟩ := hd
    by_cases h₀ : k₀ = k
    · subst h₀
      simp [setKeyFields, lookupKey, hk]
    · simp [setKeyFields, h₀, lookupKey, ih]

theorem setKeyFields_keys_of_absent (fs : List (String × J)) (k : String) (v : J)
    (h : lookupKey fs k = none) :
    (setKeyFields fs k v).map Prod.fst = fs.map Prod.fst ++ [k] := by
  induction fs with
  | nil => simp [setKeyFields]
  | cons hd tl ih =>
    obtain ⟨k₀, v₀⟩ := hd
    by_cases h₀ : k₀ = k
    · simp [lookupKey, h₀] at h
    · simp only [lookupKey, h₀, if_false] at h
      simp [setKeyFields, h₀, ih h]

theorem getKey_setKey_obj_self (fs : List (String × J)) (k : String) (v : J) :
    getKey (setKey (.obj fs) k v) k = some v := by
  simp [setKey, getKey, lookupKey_setKeyFields_self]

theorem getKey_setKey_obj_ne (fs : List (String × J)) (k k' : String) (v : J)
    (h : k' ≠ k) :
    getKey (setKey (.obj fs) k v) k' = getKey (.obj fs) k' := by
  simp [setKey, getKey, lookupKey_setKeyFields_ne fs k k' v h]

theorem jKeys_setKey_obj_of_absent (fs : List (String × J)) (k : String) (v : J)
    (h : lookupKey fs k = none) :
    jKeys (setKey (.obj fs) k v) = jKeys (.obj fs) ++ [k] := by
  simp [setKey, jKeys, setKeyFields_keys_of_absent fs k v h]

/-! ## Lemmas about `basePostFields` -/

theorem lookupKey_basePost_local_file (m : Media) :
    lookupKey (basePostFields m) "local_file" = none := by
  simp [basePostFields, lookupKey]

theorem lookupKey_basePost_id (m : Media) :
    lookupKey (basePostFields m) "id" = some (.s (toString m.id)) := by
  simp [basePostFields, lookupKey]

theorem basePostFields_keys (m : Media) :
    (basePostFields m).map Prod.fst =
      ["id", "code", "taken_at", "media_type", "caption", "like_count",
       "comment_count", "play_count", "thumbnail_url", "resources"] := by
  simp [basePostFields]

/-! ## Lemmas about `download_media` and the per-item download blocks -/

theorem download_media_fst (c : Client) (url fn : String) :
    (download_media c url fn).1 = c.download url fn := by
  unfold download_media
  cases h : c.download url fn <;> simp [h]

theorem download_media_snd_filter (c : Client) (url fn : String) :
    (download_media c url fn).2.filter isDownloadAttempt =
      [.downloadAttempt url fn (c.download url fn)] := by
  unfold download_media
  cases h : c.download url fn <;> simp [h, isDownloadAttempt, List.filter]

theorem sleep_not_mem_download_media (c : Client) (url fn : String) (q : Rat) :
    Event.sleep q ∉ (download_media c url fn).2 := by
  unfold download_media
  cases h : c.download url fn <;> simp [h]

theorem jsonDump_not_mem_download_media (c : Client) (url fn : String)
    (p : String) (d : J) :
    Event.jsonDump p d ∉ (download_media c url fn).2 := by
  unfold download_media
  cases h : c.download url fn <;> simp [h]

theorem successful_attempt_mem_download_media (c : Client) (url fn : String) :
    (∃ u' f', Event.downloadAttempt u' f' true ∈ (download_media c url fn).2) ↔
      c.download url fn = true := by
  unfold download_media
  cases h : c.download url fn <;> simp [h]

theorem photoStep_fst (c : Client) (env : Env) (u : String) (m : Media) (post : J) :
    (photoStep c env u m post).1 =
      if envFlag env.download_photos = true ∧ m.media_type = 1 ∧
          c.download (pyStrOpt m.thumbnail_url) (jpgName u m) = true then
        setKey post "local_file" (.s ("media/" ++ jpgName u m))
      else post := by
  unfold photoStep
  by_cases hp : envFlag env.download_photos = true
  · by_cases h1 : m.media_type = 1
    · cases hd : c.download (pyStrOpt m.thumbnail_url) (jpgName u m) <;>
        simp [hp, h1, download_media_fst, hd]
    · simp [hp, h1]
  · simp [hp]

theorem photoStep_snd (c : Client) (env : Env) (u : String) (m : Media) (post : J) :
    (photoStep c env u m post).2 =
      if envFlag env.download_photos = true ∧ m.media_type = 1 then
        (download_media c (pyStrOpt m.thumbnail_url) (jpgName u m)).2
      else [] := by
  unfold photoStep
  by_cases hp : envFlag env.download_photos = true
  · by_cases h1 : m.media_type = 1 <;> simp [hp, h1]
  · simp [hp]

theorem videoStep_fst (c : Client) (env : Env) (u : String) (m : Media) (post : J) :
    (videoStep c env u m post).1 =
      if envFlag env.download_videos = true ∧ m.media_type = 2 ∧
          m.video_url.isSome = true ∧
          c.download (pyStrOpt m.video_url) (mp4Name u m) = true then
        setKey post "local_file" (.s ("media/" ++ mp4Name u m))
      else post := by
  unfold videoStep
  by_cases hv : envFlag env.download_videos = true
  · by_cases h2 : m.media_type = 2
    · cases hu : m.video_url with
      | none => simp [hv, h2, hu]
      | some vu =>
        cases hd : c.download (pyStrOpt (some vu)) (mp4Name u m) <;>
          simp [hv, h2, hu, download_media_fst, hd]
    · simp [hv, h2]
  · simp [hv]

theorem videoStep_snd (c : Client) (env : Env) (u : String) (m : Media) (post : J) :
    (videoStep c env u m post).2 =
      if envFlag env.download_videos = true ∧ m.media_type = 2 ∧
          m.video_url.isSome = true then
        (download_media c (pyStrOpt m.video_url) (mp4Name u m)).2
      else [] := by
  unfold videoStep
  by_cases hv : envFlag env.download_videos = true
  · by_cases h2 : m.media_type = 2
    · cases hu : m.video_url with
      | none => simp [hv, h2, hu]
      | some vu => simp [hv, h2, hu]
    · simp [hv, h2]
  · simp [hv]

/-! ## Lemmas about one iteration of the posts loop -/

theorem processItem_ok (c : Client) (env : Env) (u : String) (m : Media)
    (h : m.attr_error = false) :
    processItem c env u m = (.ok (itemPost c env u m), itemEvents c env u m) := by
  simp [processItem, itemPost, itemEvents, h]

theorem processItem_error (c : Client) (env : Env) (u : String) (m : Media)
    (h : m.attr_error = true) :
    processItem c env u m =
      (.error (.other "attribute access failed"),
       [.sleep (env.request_delay : Rat)]) := by
  simp [processItem, h]

theorem itemEvents_eq (c : Client) (env : Env) (u : String) (m : Media)
    (h : m.attr_error = false) :
    itemEvents c env u m =
      .sleep (env.request_delay : Rat) ::
        ((photoStep c env u m (.obj (basePostFields m))).2 ++
         (videoStep c env u m
           (photoStep c env u m (.obj (basePostFields m))).1).2) := by
  simp [itemEvents, processItem, h]

theorem itemPost_cases (c : Client) (env : Env) (u : String) (m : Media) :
    itemPost c env u m = .obj (basePostFields m) ∨
      ∃ fn, itemPost c env u m =
        setKey (.obj (basePostFields m)) "local_file" (.s ("media/" ++ fn)) := by
  unfold itemPost
  rw [videoStep_fst, photoStep_fst]
  by_cases hp : envFlag env.download_photos = true ∧ m.media_type = 1 ∧
      c.download (pyStrOpt m.thumbnail_url) (jpgName u m) = true
  · by_cases hv : envFlag env.download_videos = true ∧ m.media_type = 2 ∧
        m.video_url.isSome = true ∧
        c.download (pyStrOpt m.video_url) (mp4Name u m) = true
    · exact absurd (hp.2.1 ▸ hv.2.1) (by simp)
    · exact Or.inr ⟨jpgName u m, by simp [hp, hv]⟩
  · by_cases hv : envFlag env.download_videos = true ∧ m.media_type = 2 ∧
        m.video_url.isSome = true ∧
        c.download (pyStrOpt m.video_url) (mp4Name u m) = true
    · exact Or.inr ⟨mp4Name u m, by simp [hp, hv]⟩
    · exact Or.inl (by simp [hp, hv])

theorem getKey_itemPost_local_file (c : Client) (env : Env) (u : String) (m : Media) :
    getKey (itemPost c env u m) "local_file" =
      if envFlag env.download_photos = true ∧ m.media_type = 1 ∧
          c.download (pyStrOpt m.thumbnail_url) (jpgName u m) = true then
        some (.s ("media/" ++ jpgName u m))
      else if envFlag env.download_videos = true ∧ m.media_type = 2 ∧
          m.video_url.isSome = true ∧
          c.download (pyStrOpt m.video_url) (mp4Name u m) = true then
        some (.s ("media/" ++ mp4Name u m))
      else none := by
  unfold itemPost
  rw [videoStep_fst, photoStep_fst]
  by_cases hp : envFlag env.download_photos = true ∧ m.media_type = 1 ∧
      c.download (pyStrOpt m.thumbnail_url) (jpgName u m) = true
  · by_cases hv : envFlag env.download_videos = true ∧ m.media_type = 2 ∧
        m.video_url.isSome = true ∧
        c.download (pyStrOpt m.video_url) (mp4Name u m) = true
    · exact absurd (hp.2.1 ▸ hv.2.1) (by simp)
    · simp [hp, hv, getKey_setKey_obj_self]
  · by_cases hv : envFlag env.download_videos = true ∧ m.media_type = 2 ∧
        m.video_url.isSome = true ∧
        c.download (pyStrOpt m.video_url) (mp4Name u m) = true
    · simp [hp, hv, getKey_setKey_obj_self]
    · simp [hp, hv, getKey, lookupKey_basePost_local_file]

theorem getKey_itemPost_id (c : Client) (env : Env) (u : String) (m : Media) :
    getKey (itemPost c env u m) "id" = some (.s (toString m.id)) := by
  rcases itemPost_cases c env u m with h | ⟨fn, h⟩
  · rw [h]
    simp [getKey, lookupKey_basePost_id]
  · rw [h, getKey_setKey_obj_ne _ _ _ _ (by decide)]
    simp [getKey, lookupKey_basePost_id]

theorem jKeys_itemPost (c : Client) (env : Env) (u : String) (m : Media) :
    jKeys (itemPost c env u m) =
      ["id", "code", "taken_at", "media_type", "caption", "like_count",
       "comment_count", "play_count", "thumbnail_url", "resources"] ∨
    jKeys (itemPost c env u m) =
      ["id", "code", "taken_at", "media_type", "caption", "like_count",
       "comment_count", "play_count", "thumbnail_url", "resources",
       "local_file"] := by
  rcases itemPost_cases c env u m with h | ⟨fn, h⟩
  · exact Or.inl (by rw [h]; simp [jKeys, basePostFields_keys])
  · refine Or.inr ?_
    rw [h, jKeys_setKey_obj_of_absent _ _ _ (lookupKey_basePost_local_file m)]
    simp [jKeys, basePostFields_keys]

theorem itemEvents_filter_downloads (c : Client) (env : Env) (u : String)
    (m : Media) (h : m.attr_error = false) :
    (itemEvents c env u m).filter isDownloadAttempt =
      (if envFlag env.download_photos = true ∧ m.media_type = 1 then
        [Event.downloadAttempt (pyStrOpt m.thumbnail_url) (jpgName u m)
          (c.download (pyStrOpt m.thumbnail_url) (jpgName u m))]
      else []) ++
      (if envFlag env.download_videos = true ∧ m.media_type = 2 ∧
          m.video_url.isSome = true then
        [Event.downloadAttempt (pyStrOpt m.video_url) (mp4Name u m)
          (c.download (pyStrOpt m.video_url) (mp4Name u m))]
      else []) := by
  rw [itemEvents_eq c env u m h, photoStep_snd, videoStep_snd]
  by_cases hp : envFlag env.download_photos = true ∧ m.media_type = 1 <;>
    by_cases hv : envFlag env.download_videos = true ∧ m.media_type = 2 ∧
        m.video_url.isSome = true <;>
    simp [hp, hv, isDownloadAttempt, List.filter_append, download_media_snd_filter]

theorem sleep_mem_itemEvents (c : Client) (env : Env) (u : String) (m : Media)
    (q : Rat) (h : Event.sleep q ∈ itemEvents c env u m) :
    q = (env.request_delay : Rat) := by
  by_cases ha : m.attr_error = true
  · simp [itemEvents, processItem, ha] at h
    exact h
  · rw [itemEvents_eq c env u m (by simpa using ha)] at h
    rw [photoStep_snd, videoStep_snd] at h
    rcases List.mem_cons.mp h with h | h
    · exact (Event.sleep.injEq _ _).mp h.symm |>.symm ▸ rfl
    · exfalso
      rcases List.mem_append.mp h with h | h
      · by_cases hp : envFlag env.download_photos = true ∧ m.media_type = 1
        · rw [if_pos hp] at h
          exact sleep_not_mem_download_media _ _ _ _ h
        · rw [if_neg hp] at h
          exact absurd h (List.not_mem_nil _)
      · by_cases hv : envFlag env.download_videos = true ∧ m.media_type = 2 ∧
            m.video_url.isSome = true
        · rw [if_pos hv] at h
          exact sleep_not_mem_download_media _ _ _ _ h
        · rw [if_neg hv] at h
          exact absurd h (List.not_mem_nil _)

theorem jsonDump_not_mem_itemEvents (c : Client) (env : Env) (u : String)
    (m : Media) (p : String) (d : J) :
    Event.jsonDump p d ∉ itemEvents c env u m := by
  intro h
  by_cases ha : m.attr_error = true
  · simp [itemEvents, processItem, ha] at h
  · rw [itemEvents_eq c env u m (by simpa using ha)] at h
    rw [photoStep_snd, videoStep_snd] at h
    rcases List.mem_cons.mp h with h | h
    · simp at h
    · rcases List.mem_append.mp h with h | h <;>
      · split at h
        · exact jsonDump_not_mem_download_media _ _ _ _ _ h
        · exact absurd h (List.not_mem_nil _)

/-! ## Lemmas about the posts loop -/

theorem postLoop_fst_ok (c : Client) (env : Env) (u : String) (l : List Media)
    (h : ∀ m ∈ l, m.attr_error = false) :
    (postLoop c env u l).1 = .ok (l.map (itemPost c env u)) := by
  induction l with
  | nil => simp [postLoop]
  | cons m ms ih =>
    have hm : m.attr_error = false := h m (by simp)
    have hrec := ih (fun m' hm' => h m' (by simp [hm']))
    rcases hr : postLoop c env u ms with ⟨r', evs'⟩
    rw [hr] at hrec
    simp only at hrec
    subst hrec
    simp [postLoop, processItem_ok c env u m hm, hr]

theorem postLoop_error_of_attr (c : Client) (env : Env) (u : String)
    (l : List Media) (m : Media) (hm : m ∈ l) (ha : m.attr_error = true) :
    ∃ e, (postLoop c env u l).1 = .error e := by
  induction l with
  | nil => simp at hm
  | cons m₀ ms ih =>
    by_cases h₀ : m₀.attr_error = true
    · exact ⟨.other "attribute access failed",
        by simp [postLoop, processItem_error c env u m₀ h₀]⟩
    · have hms : m ∈ ms := by
        rcases List.mem_cons.mp hm with h | h
        · exact absurd (h ▸ ha) h₀
        · exact h
      obtain ⟨e, he⟩ := ih hms
      refine ⟨e, ?_⟩
      rcases hr : postLoop c env u ms with ⟨r', evs'⟩
      rw [hr] at he
      simp only at he
      subst he
      simp [postLoop, processItem_ok c env u m₀ (by simpa using h₀), hr]

theorem sleep_mem_postLoop (c : Client) (env : Env) (u : String)
    (l : List Media) (q : Rat) (h : Event.sleep q ∈ (postLoop c env u l).2) :
    q = (env.request_delay : Rat) := by
  induction l with
  | nil => simp [postLoop] at h
  | cons m ms ih =>
    rcases hpi : processItem c env u m with ⟨r, evs⟩
    have hev : evs = itemEvents c env u m := by rw [itemEvents, hpi]
    cases r with
    | error e =>
      rw [postLoop, hpi] at h
      exact sleep_mem_itemEvents c env u m q (hev ▸ h)
    | ok p =>
      rcases hrec : postLoop c env u ms with ⟨r', evs'⟩
      rw [postLoop, hpi, hrec] at h
      have hmem : Event.sleep q ∈ evs ++ evs' := by
        cases r' <;> simpa using h
      rcases List.mem_append.mp hmem with h' | h'
      · exact sleep_mem_itemEvents c env u m q (hev ▸ h')
      · exact ih (hrec ▸ h' : Event.sleep q ∈ (postLoop c env u ms).2)

theorem jsonDump_not_mem_postLoop (c : Client) (env : Env) (u : String)
    (l : List Media) (p : String) (d : J) :
    Event.jsonDump p d ∉ (postLoop c env u l).2 := by
  induction l with
  | nil => simp [postLoop]
  | cons m ms ih =>
    intro h
    rcases hpi : processItem c env u m with ⟨r, evs⟩
    have hev : evs = itemEvents c env u m := by rw [itemEvents, hpi]
    cases r with
    | error e =>
      rw [postLoop, hpi] at h
      exact jsonDump_not_mem_itemEvents c env u m p d (hev ▸ h)
    | ok pj =>
      rcases hrec : postLoop c env u ms with ⟨r', evs'⟩
      rw [postLoop, hpi, hrec] at h
      have hmem : Event.jsonDump p d ∈ evs ++ evs' := by
        cases r' <;> simpa using h
      rcases List.mem_append.mp hmem with h' | h'
      · exact jsonDump_not_mem_itemEvents c env u m p d (hev ▸ h')
      · exact ih (hrec ▸ h' : Event.jsonDump p d ∈ (postLoop c env u ms).2)

theorem get_user_posts_fst_ok (c : Client) (env : Env) (u : String)
    (lim : Nat) (uid : Nat) (medias : List Media)
    (hid : c.user_id_from_username u = .ok uid)
    (hm : c.user_medias uid lim = .ok medias)
    (hall : ∀ m ∈ medias, m.attr_error = false) :
    (get_user_posts c env u lim).1 = medias.map (itemPost c env u) := by
  have hpl := postLoop_fst_ok c env u medias hall
  rcases hr : postLoop c env u medias with ⟨r, evs⟩
  rw [hr] at hpl
  simp only at hpl
  subst hpl
  simp [get_user_posts, hid, hm, hr]

theorem sleep_mem_get_user_posts (c : Client) (env : Env) (u : String)
    (lim : Nat) (q : Rat)
    (h : Event.sleep q ∈ (get_user_posts c env u lim).2) :
    q = (env.request_delay : Rat) := by
  unfold get_user_posts at h
  rcases hid : c.user_id_from_username u with e | uid
  · simp [hid] at h
  · rcases hm : c.user_medias uid lim with e | medias
    · simp [hid, hm] at h
    · rcases hr : postLoop c env u medias with ⟨r, evs⟩
      simp only [hid, hm, hr] at h
      have hmem : Event.sleep q ∈ evs := by cases r <;> simpa using h
      exact sleep_mem_postLoop c env u medias q (hr ▸ hmem : _)

theorem jsonDump_not_mem_get_user_posts (c : Client) (env : Env) (u : String)
    (lim : Nat) (p : String) (d : J) :
    Event.jsonDump p d ∉ (get_user_posts c env u lim).2 := by
  intro h
  unfold get_user_posts at h
  rcases hid : c.user_id_from_username u with e | uid
  · simp [hid] at h
  · rcases hm : c.user_medias uid lim with e | medias
    · simp [hid, hm] at h
    · rcases hr : postLoop c env u medias with ⟨r, evs⟩
      simp only [hid, hm, hr] at h
      have hmem : Event.jsonDump p d ∈ evs := by cases r <;> simpa using h
      exact jsonDump_not_mem_postLoop c env u medias p d (hr ▸ hmem : _)

theorem get_user_posts_mem_itemPost (c : Client) (env : Env) (u : String)
    (lim : Nat) (j : J) (h : j ∈ (get_user_posts c env u lim).1) :
    ∃ m, j = itemPost c env u m := by
  unfold get_user_posts at h
  rcases hid : c.user_id_from_username u with e | uid
  · simp [hid] at h
  · rcases hm : c.user_medias uid lim with e | medias
    · simp [hid, hm] at h
    · simp only [hid, hm] at h
      have : ∀ l : List Media, ∀ r : Except Err (List J) × List Event,
          postLoop c env u l = r →
          j ∈ (match r with
               | (.error _, evs) => (([] : List J), evs)
               | (.ok posts, evs) => (posts, evs)).1 →
          ∃ m, j = itemPost c env u m := by
        intro l
        induction l with
        | nil =>
          intro r hr hj
          rw [← hr] at hj
          simp [postLoop] at hj
        | cons m ms ih =>
          intro r hr hj
          rw [← hr] at hj
          rcases hpi : processItem c env u m with ⟨ri, evs⟩
          cases ri with
          | error e => rw [postLoop, hpi] at hj; simp at hj
          | ok pj =>
            rcases hrec : postLoop c env u ms with ⟨r', evs'⟩
            rw [postLoop, hpi, hrec] at hj
            cases r' with
            | error e => simp at hj
            | ok rest =>
              simp only [List.mem_cons] at hj
              rcases hj with hj | hj
              · refine ⟨m, ?_⟩
                have : (Except.ok pj : Except Err J) = .ok (itemPost c env u m) := by
                  by_cases ha : m.attr_error = true
                  · rw [processItem_error c env u m ha] at hpi
                    exact absurd (congrArg Prod.fst hpi) (by simp)
                  · rw [processItem_ok c env u m (by simpa using ha)] at hpi
                    exact (congrArg Prod.fst hpi).symm
                simpa [hj] using this
              · exact ih (postLoop c env u ms) rfl (by rw [hrec]; simpa using hj)
      exact this medias _ rfl h

/-! ## Lemmas about the relationship loop -/

theorem relLoop_fst_ok (env : Env) (pairs : List (Nat × UserShort))
    (h : ∀ p ∈ pairs, p.2.attr_error = false) :
    (relLoop env pairs).1 = .ok (pairs.map (fun p => relJson p.2)) := by
  induction pairs with
  | nil => simp [relLoop]
  | cons hd tl ih =>
    obtain ⟨i, info⟩ := hd
    have h₀ : info.attr_error = false := h (i, info) (by simp)
    have hrec := ih (fun p hp => h p (by simp [hp]))
    rcases hr : relLoop env tl with ⟨r', evs'⟩
    rw [hr] at hrec
    simp only at hrec
    subst hrec
    simp [relLoop, h₀, hr]

theorem relLoop_error_of_attr (env : Env) (pairs : List (Nat × UserShort))
    (p : Nat × UserShort) (hp : p ∈ pairs) (ha : p.2.attr_error = true) :
    ∃ e, (relLoop env pairs).1 = .error e := by
  induction pairs with
  | nil => simp at hp
  | cons hd tl ih =>
    obtain ⟨i, info⟩ := hd
    by_cases h₀ : info.attr_error = true
    · exact ⟨.other "attribute access failed", by simp [relLoop, h₀]⟩
    · have htl : p ∈ tl := by
        rcases List.mem_cons.mp hp with h | h
        · exact absurd (h ▸ ha) (by simpa [h] using h₀)
        · exact h
      obtain ⟨e, he⟩ := ih htl
      refine ⟨e, ?_⟩
      rcases hr : relLoop env tl with ⟨r', evs'⟩
      rw [hr] at he
      simp only at he
      subst he
      simp [relLoop, h₀, hr]

theorem mem_relLoop_events (env : Env) (pairs : List (Nat × UserShort))
    (e : Event) (h : e ∈ (relLoop env pairs).2) :
    e = .sleep ((env.request_delay : Rat) / 2) := by
  induction pairs with
  | nil => simp [relLoop] at h
  | cons hd tl ih =>
    obtain ⟨i, info⟩ := hd
    by_cases h₀ : info.attr_error = true
    · simp [relLoop, h₀] at h
      exact h
    · rcases hr : relLoop env tl with ⟨r', evs'⟩
      rw [relLoop] at h
      simp only [h₀, if_false, Bool.false_eq_true] at h
      rw [hr] at h
      have hmem : e ∈ Event.sleep ((env.request_delay : Rat) / 2) :: evs' := by
        cases r' <;> simpa using h
      rcases List.mem_cons.mp hmem with h' | h'
      · exact h'
      · exact ih (hr ▸ h' : _)

theorem get_followers_fst_ok (c : Client) (env : Env) (u : String) (lim : Nat)
    (uid : Nat) (pairs : List (Nat × UserShort))
    (hid : c.user_id_from_username u = .ok uid)
    (hp : c.user_followers uid lim = .ok pairs)
    (hall : ∀ p ∈ pairs, p.2.attr_error = false) :
    (get_followers c env u lim).1 = pairs.map (fun p => relJson p.2) := by
  have hrl := relLoop_fst_ok env pairs hall
  rcases hr : relLoop env pairs with ⟨r, evs⟩
  rw [hr] at hrl
  simp only at hrl
  subst hrl
  simp [get_followers, hid, hp, hr]

theorem get_following_fst_ok (c : Client) (env : Env) (u : String) (lim : Nat)
    (uid : Nat) (pairs : List (Nat × UserShort))
    (hid : c.user_id_from_username u = .ok uid)
    (hp : c.user_following uid lim = .ok pairs)
    (hall : ∀ p ∈ pairs, p.2.attr_error = false) :
    (get_following c env u lim).1 = pairs.map (fun p => relJson p.2) := by
  have hrl := relLoop_fst_ok env pairs hall
  rcases hr : relLoop env pairs with ⟨r, evs⟩
  rw [hr] at hrl
  simp only at hrl
  subst hrl
  simp [get_following, hid, hp, hr]

theorem mem_get_followers_events (c : Client) (env : Env) (u : String)
    (lim : Nat) (e : Event) (h : e ∈ (get_followers c env u lim).2) :
    e = .sleep ((env.request_delay : Rat) / 2) := by
  unfold get_followers at h
  rcases hid : c.user_id_from_username u with e' | uid
  · simp [hid] at h
  · rcases hp : c.user_followers uid lim with e' | pairs
    · simp [hid, hp] at h
    · rcases hr : relLoop env pairs with ⟨r, evs⟩
      simp only [hid, hp, hr] at h
      have hmem : e ∈ evs := by cases r <;> simpa using h
      exact mem_relLoop_events env pairs e (hr ▸ hmem : _)

theorem mem_get_following_events (c : Client) (env : Env) (u : String)
    (lim : Nat) (e : Event) (h : e ∈ (get_following c env u lim).2) :
    e = .sleep ((env.request_delay : Rat) / 2) := by
  unfold get_following at h
  rcases hid : c.user_id_from_username u with e' | uid
  · simp [hid] at h
  · rcases hp : c.user_following uid lim with e' | pairs
    · simp [hid, hp] at h
    · rcases hr : relLoop env pairs with ⟨r, evs⟩
      simp only [hid, hp, hr] at h
      have hmem : e ∈ evs := by cases r <;> simpa using h
      exact mem_relLoop_events env pairs e (hr ▸ hmem : _)

theorem get_followers_mem_relJson (c : Client) (env : Env) (u : String)
    (lim : Nat) (j : J) (h : j ∈ (get_followers c env u lim).1) :
    ∃ info : UserShort, j = relJson info := by
  unfold get_followers at h
  rcases hid : c.user_id_from_username u with e' | uid
  · simp [hid] at h
  · rcases hp : c.user_followers uid lim with e' | pairs
    · simp [hid, hp] at h
    · simp only [hid, hp] at h
      have : ∀ ps : List (Nat × UserShort), ∀ r : Except Err (List J) × List Event,
          relLoop env ps = r →
          j ∈ (match r with
               | (.error _, evs) => (([] : List J), evs)
               | (.ok l, evs) => (l, evs)).1 →
          ∃ info : UserShort, j = relJson info := by
        intro ps
        induction ps with
        | nil =>
          intro r hr hj
          rw [← hr] at hj
          simp [relLoop] at hj
        | cons hd tl ih =>
          intro r hr hj
          rw [← hr] at hj
          obtain ⟨i, info⟩ := hd
          by_cases h₀ : info.attr_error = true
          · rw [relLoop] at hj
            simp [h₀] at hj
          · rcases hrec : relLoop env tl with ⟨r', evs'⟩
            rw [relLoop] at hj
            simp only [h₀, if_false, Bool.false_eq_true] at hj
            rw [hrec] at hj
            cases r' with
            | error e => simp at hj
            | ok rest =>
              simp only [List.mem_cons] at hj
              rcases hj with hj | hj
              · exact ⟨info, hj⟩
              · exact ih (relLoop env tl) rfl (by rw [hrec]; simpa using hj)
      exact this pairs _ rfl h

theorem get_following_mem_relJson (c : Client) (env : Env) (u : String)
    (lim : Nat) (j : J) (h : j ∈ (get_following c env u lim).1) :
    ∃ info : UserShort, j = relJson info := by
  unfold get_following at h
  rcases hid : c.user_id_from_username u with e' | uid
  · simp [hid] at h
  · rcases hp : c.user_following uid lim with e' | pairs
    · simp [hid, hp] at h
    · simp only [hid, hp] at h
      have : ∀ ps : List (Nat × UserShort), ∀ r : Except Err (List J) × List Event,
          relLoop env ps = r →
          j ∈ (match r with
               | (.error _, evs) => (([] : List J), evs)
               | (.ok l, evs) => (l, evs)).1 →
          ∃ info : UserShort, j = relJson info := by
        intro ps
        induction ps with
        | nil =>
          intro r hr hj
          rw [← hr] at hj
          simp [relLoop] at hj
        | cons hd tl ih =>
          intro r hr hj
          rw [← hr] at hj
          obtain ⟨i, info⟩ := hd
          by_cases h₀ : info.attr_error = true
          · rw [relLoop] at hj
            simp [h₀] at hj
          · rcases hrec : relLoop env tl with ⟨r', evs'⟩
            rw [relLoop] at hj
            simp only [h₀, if_false, Bool.false_eq_true] at hj
            rw [hrec] at hj
            cases r' with
            | error e => simp at hj
            | ok rest =>
              simp only [List.mem_cons] at hj
              rcases hj with hj | hj
              · exact ⟨info, hj⟩
              · exact ih (relLoop env tl) rfl (by rw [hrec]; simpa using hj)
      exact this pairs _ rfl h

theorem jKeys_relJson (info : UserShort) :
    jKeys (relJson info) =
      ["pk", "username", "full_name", "is_private", "is_verified",
       "follower_count", "following_count", "profile_pic_url"] := by
  simp [relJson, relFields, jKeys]

/-! ## Lemmas about `login` -/

theorem login_fallthrough_fresh_fail (o : LoginOracle) (env : Env)
    (r1 : Except Err Bool) (t1 : List Event)
    (ha : loginAttempt1 o env = (r1, t1)) (hr : r1 ≠ .ok true)
    (e : Err) (hfe : o.fresh_login = .error e) :
    login o env = .ok (false, t1 ++ [.clientLogin]) := by
  unfold login
  rw [ha]
  cases r1 with
  | error e1 =>
    simp only
    rw [hfe]
    cases e <;> rfl
  | ok b =>
    cases b with
    | true => exact absurd rfl hr
    | false =>
      simp only [Bool.false_eq_true, if_false]
      rw [hfe]
      cases e <;> rfl

/-! ## Claim theorems and witnesses -/

/-- C1: whenever `get_user_info` returns `None`, `extract_user_data`
returns the empty result `{}` with only the profile fetcher's rate-limit
sleep in its trace: the JSON output file is never opened or written, no
other file is written, and none of `get_user_posts`, `get_followers`,
`get_following` is invoked. -/
theorem C1_profile_absent_aborts (c : Client) (env : Env) (u : String)
    (h : (get_user_info c env u).1 = none) :
    extract_user_data c env u =
      (none, [.sleep (env.request_delay : Rat)]) ∧
    (∀ p d, Event.jsonDump p d ∉ (extract_user_data c env u).2) ∧
    (∀ f, Event.mediaFileWrite f ∉ (extract_user_data c env u).2) ∧
    (∀ p, Event.csvWrite p ∉ (extract_user_data c env u).2) ∧
    (∀ p, Event.dumpSession p ∉ (extract_user_data c env u).2) ∧
    (∀ s, Event.call s ∉ (extract_user_data c env u).2) := by
  have hg : get_user_info c env u =
      (none, [.sleep (env.request_delay : Rat)]) := by
    rcases hi : c.user_info_by_username u with e | ru
    · simp [get_user_info, hi]
    · simp [get_user_info, hi] at h
  have he : extract_user_data c env u =
      (none, [.sleep (env.request_delay : Rat)]) := by
    unfold extract_user_data
    rw [hg]
  rw [he]
  refine ⟨rfl, ?_, ?_, ?_, ?_, ?_⟩ <;> intros <;> simp

/-- Witness for C1 at a concrete failing client. -/
theorem C1_profile_absent_aborts_witness :
    (get_user_info clientProfileDown envW "alice").1 = none ∧
    extract_user_data clientProfileDown envW "alice" =
      (none, [.sleep ((2 : Int) : Rat)]) := by
  refine ⟨rfl, ?_⟩
  exact (C1_profile_absent_aborts clientProfileDown envW "alice" rfl).1

/-- C10: `login()` is total at its boundary: whatever the outcomes of the
underlying client calls, it evaluates to `.ok` of a boolean (an `.error`
result, which would model an exception propagating to the caller, is
impossible). -/
theorem C10_login_never_raises (o : LoginOracle) (env : Env) :
    ∃ b t, login o env = .ok (b, t) := by
  obtain ⟨fe, ld, sl, fl, dp⟩ := o
  cases fe <;> rcases ld with e1 | u1 <;> rcases sl with e2 | u2 <;>
    rcases fl with e3 | u3 <;> rcases dp with e4 | u4 <;>
    first
    | exact ⟨_, _, rfl⟩
    | (cases e3 <;> exact ⟨_, _, rfl⟩)
    | (cases e4 <;> exact ⟨_, _, rfl⟩)

/-- C5: `login()` dumps a session file only on the fresh-login path.  When
a session file exists and the reuse attempt succeeds, `login()` returns
`True` after a single `client.login` call and without persisting a session
file; when the reuse attempt falls through and the fresh `client.login`
fails, `login()` returns `False` without writing a session file. -/
theorem C5_session_dump_only_on_fresh_login (o : LoginOracle) (env : Env) :
    (o.session_file_exists = true → o.load_settings = .ok () →
      o.session_login = .ok () →
      login o env =
        .ok (true, [.loadSession env.session_file, .clientLogin]) ∧
      ([Event.loadSession env.session_file,
        Event.clientLogin].filter isClientLogin).length = 1 ∧
      (∀ p, Event.dumpSession p ∉
        [Event.loadSession env.session_file, Event.clientLogin])) ∧
    ((o.session_file_exists = false ∨ (∃ e, o.load_settings = .error e) ∨
        (∃ e, o.session_login = .error e)) →
      (∃ e, o.fresh_login = .error e) →
      ∃ t, login o env = .ok (false, t) ∧
        ∀ p, Event.dumpSession p ∉ t) := by
  constructor
  · intro h1 h2 h3
    refine ⟨?_, rfl, by intro p; simp⟩
    unfold login loginAttempt1
    rw [h1, h2, h3]
    rfl
  · intro hfall hfe
    obtain ⟨e, hfe⟩ := hfe
    rcases hfall with h | ⟨e', h⟩ | ⟨e', h⟩
    · refine ⟨[.clientLogin], ?_, by intro p; simp⟩
      refine login_fallthrough_fresh_fail o env (.ok false) [] ?_ (by simp) e hfe
      simp [loginAttempt1, h]
    · by_cases hex : o.session_file_exists = true
      · refine ⟨[.loadSession env.session_file, .clientLogin], ?_,
          by intro p; simp⟩
        refine login_fallthrough_fresh_fail o env (.error e')
          [.loadSession env.session_file] ?_ (by simp) e hfe
        unfold loginAttempt1
        rw [if_pos hex, h]
      · refine ⟨[.clientLogin], ?_, by intro p; simp⟩
        refine login_fallthrough_fresh_fail o env (.ok false) [] ?_ (by simp)
          e hfe
        unfold loginAttempt1
        rw [if_neg hex]
    · by_cases hex : o.session_file_exists = true
      · rcases hld : o.load_settings with e₀ | u₀
        · refine ⟨[.loadSession env.session_file, .clientLogin], ?_,
            by intro p; simp⟩
          refine login_fallthrough_fresh_fail o env (.error e₀)
            [.loadSession env.session_file] ?_ (by simp) e hfe
          unfold loginAttempt1
          rw [if_pos hex, hld]
        · refine ⟨[.loadSession env.session_file, .clientLogin,
            .clientLogin], ?_, by intro p; simp⟩
          refine login_fallthrough_fresh_fail o env (.error e')
            [.loadSession env.session_file, .clientLogin] ?_ (by simp) e hfe
          unfold loginAttempt1
          rw [if_pos hex, hld, h]
      · refine ⟨[.clientLogin], ?_, by intro p; simp⟩
        refine login_fallthrough_fresh_fail o env (.ok false) [] ?_ (by simp)
          e hfe
        unfold loginAttempt1
        rw [if_neg hex]

/-- Witness for C5 at a concrete reuse-success oracle and a concrete
both-attempts-fail oracle. -/
theorem C5_session_dump_only_on_fresh_login_witness :
    (login oracleReuseOk envW =
      .ok (true, [.loadSession envW.session_file, .clientLogin])) ∧
    (∃ t, login oracleAllFail envW = .ok (false, t) ∧
      ∀ p, Event.dumpSession p ∉ t) := by
  constructor
  · exact ((C5_session_dump_only_on_fresh_login oracleReuseOk envW).1
      rfl rfl rfl).1
  · exact (C5_session_dump_only_on_fresh_login oracleAllFail envW).2
      (Or.inl rfl) ⟨.badPassword, rfl⟩

/-- C3: `get_user_posts` defaults its limit to 100 and is all-or-nothing:
whether the user-id resolution, the media fetch, or the building of any
item's record fails, it returns the empty list — records already built
before a mid-loop failure are discarded. -/
theorem C3_posts_all_or_nothing (c : Client) (env : Env) (u : String)
    (lim : Nat) :
    get_user_posts c env u = get_user_posts c env u 100 ∧
    (∀ e, c.user_id_from_username u = .error e →
      get_user_posts c env u lim = ([], [])) ∧
    (∀ uid e, c.user_id_from_username u = .ok uid →
      c.user_medias uid lim = .error e →
      get_user_posts c env u lim = ([], [])) ∧
    (∀ uid medias m, c.user_id_from_username u = .ok uid →
      c.user_medias uid lim = .ok medias → m ∈ medias →
      m.attr_error = true →
      (get_user_posts c env u lim).1 = []) := by
  refine ⟨rfl, ?_, ?_, ?_⟩
  · intro e he
    simp [get_user_posts, he]
  · intro uid e hid hm
    simp [get_user_posts, hid, hm]
  · intro uid medias m hid hm hmem ha
    obtain ⟨e, he⟩ := postLoop_error_of_attr c env u medias m hmem ha
    rcases hr : postLoop c env u medias with ⟨r, evs⟩
    rw [hr] at he
    simp only at he
    subst he
    simp [get_user_posts, hid, hm, hr]

/-- Witness for C3: one cleanly built item followed by a broken one; the
already-built record is discarded and the result is empty. -/
theorem C3_posts_all_or_nothing_witness :
    clientPartialFail.user_medias 42 100 = .ok [mediaPhoto, mediaBroken] ∧
    mediaBroken.attr_error = true ∧
    (get_user_posts clientPartialFail envW "w" 100).1 = [] := by
  refine ⟨rfl, rfl, ?_⟩
  exact (C3_posts_all_or_nothing clientPartialFail envW "w" 100).2.2.2
    42 [mediaPhoto, mediaBroken] mediaBroken rfl rfl (by simp) rfl

/-- C9: on success, `get_user_posts` returns exactly one record per
platform-returned media item, in order, with the `id` field equal to
`str(media.id)`; in particular the result length equals the number of
items. -/
theorem C9_posts_one_record_per_item (c : Client) (env : Env) (u : String)
    (lim : Nat) (uid : Nat) (medias : List Media)
    (hid : c.user_id_from_username u = .ok uid)
    (hm : c.user_medias uid lim = .ok medias)
    (hall : ∀ m ∈ medias, m.attr_error = false) :
    (get_user_posts c env u lim).1 = medias.map (itemPost c env u) ∧
    (get_user_posts c env u lim).1.length = medias.length ∧
    (get_user_posts c env u lim).1.map (fun p => getKey p "id") =
      medias.map (fun m => some (J.s (toString m.id))) := by
  have h1 := get_user_posts_fst_ok c env u lim uid medias hid hm hall
  refine ⟨h1, by rw [h1]; simp, ?_⟩
  rw [h1, List.map_map]
  apply List.map_congr_left
  intro m _
  simp [Function.comp, getKey_itemPost_id]

/-- Witness for C9 at a concrete two-item client. -/
theorem C9_posts_one_record_per_item_witness :
    (get_user_posts clientTwoMedias envW "w" 100).1.length = 2 ∧
    (get_user_posts clientTwoMedias envW "w" 100).1.map
      (fun p => getKey p "id") = [some (J.s "11"), some (J.s "13")] := by
  have h := C9_posts_one_record_per_item clientTwoMedias envW "w" 100
    42 [mediaPhoto, mediaVideo] rfl rfl
    (by intro m hm
        rcases List.mem_cons.mp hm with h' | h'
        · rw [h']; rfl
        · rcases List.mem_cons.mp h' with h'' | h''
          · rw [h'']; rfl
          · simp at h'')
  exact ⟨by rw [h.2.1]; rfl, by rw [h.2.2]; rfl⟩

/-- C2: for a media item processed by the posts loop, the record's
`local_file` key is present iff a `download_media` call for that item
returned `True`; a failed download leaves the key unset and neither
prevents the item from being appended nor aborts the remaining items. -/
theorem C2_local_file_iff_download_success (c : Client) (env : Env)
    (u : String) (m : Media) (ms : List Media)
    (hm : m.attr_error = false) (hms : ∀ m' ∈ ms, m'.attr_error = false) :
    ((getKey (itemPost c env u m) "local_file").isSome = true ↔
      ∃ url fn, Event.downloadAttempt url fn true ∈ itemEvents c env u m) ∧
    (postLoop c env u (m :: ms)).1 =
      .ok (itemPost c env u m :: ms.map (itemPost c env u)) := by
  constructor
  · rw [getKey_itemPost_local_file,
        itemEvents_eq c env u m hm, photoStep_snd, videoStep_snd]
    by_cases hp : envFlag env.download_photos = true ∧ m.media_type = 1
    · by_cases hv : envFlag env.download_videos = true ∧ m.media_type = 2 ∧
          m.video_url.isSome = true
      · exact absurd (hp.2.symm.trans hv.2.1) (by decide)
      · cases hd : c.download (pyStrOpt m.thumbnail_url) (jpgName u m) <;>
          simp [hp, hv, hd, download_media]
    · by_cases hv : envFlag env.download_videos = true ∧ m.media_type = 2 ∧
          m.video_url.isSome = true
      · cases hd : c.download (pyStrOpt m.video_url) (mp4Name u m) <;>
          simp [hp, hv, hd, download_media]
      · rw [if_neg (fun hc => hp ⟨hc.1, hc.2.1⟩),
            if_neg (fun hc => hv ⟨hc.1, hc.2.1, hc.2.2.1⟩),
            if_neg hp, if_neg hv]
        simp
  · have h := postLoop_fst_ok c env u (m :: ms)
      (by intro m' hm'
          rcases List.mem_cons.mp hm' with h' | h'
          · rw [h']; exact hm
          · exact hms m' h')
    simpa using h

/-- Witness for C2: a failed photo download leaves `local_file` unset, a
successful video download sets it, and both items are appended. -/
theorem C2_local_file_iff_download_success_witness :
    getKey (itemPost clientTwoMedias envW "w" mediaPhoto) "local_file" =
      none ∧
    getKey (itemPost clientTwoMedias envW "w" mediaVideo) "local_file" =
      some (.s "media/w_13.mp4") ∧
    (postLoop clientTwoMedias envW "w" [mediaPhoto, mediaVideo]).1 =
      .ok [itemPost clientTwoMedias envW "w" mediaPhoto,
           itemPost clientTwoMedias envW "w" mediaVideo] := by
  refine ⟨rfl, rfl, ?_⟩
  have h := C2_local_file_iff_download_success clientTwoMedias envW "w"
    mediaPhoto [mediaVideo] rfl
    (by intro m' hm'
        rcases List.mem_cons.mp hm' with h' | h'
        · rw [h']; rfl
        · simp at h')
  simpa using h.2

/-- C4: per item, a photo download (thumbnail URL, filename
`{username}_{postId}.jpg`) is attempted exactly when the media type is 1
and `DOWNLOAD_PHOTOS` is enabled; a video download (video URL, filename
`{username}_{postId}.mp4`) exactly when the media type is 2,
`DOWNLOAD_VIDEOS` is enabled and the item has a `video_url` attribute;
any other media type attempts no download. -/
theorem C4_download_dispatch (c : Client) (env : Env) (u : String)
    (m : Media) (h : m.attr_error = false) :
    ((itemEvents c env u m).filter isDownloadAttempt =
      (if envFlag env.download_photos = true ∧ m.media_type = 1 then
        [Event.downloadAttempt (pyStrOpt m.thumbnail_url) (jpgName u m)
          (c.download (pyStrOpt m.thumbnail_url) (jpgName u m))]
      else []) ++
      (if envFlag env.download_videos = true ∧ m.media_type = 2 ∧
          m.video_url.isSome = true then
        [Event.downloadAttempt (pyStrOpt m.video_url) (mp4Name u m)
          (c.download (pyStrOpt m.video_url) (mp4Name u m))]
      else [])) ∧
    (m.media_type ≠ 1 → m.media_type ≠ 2 →
      (itemEvents c env u m).filter isDownloadAttempt = []) := by
  refine ⟨itemEvents_filter_downloads c env u m h, ?_⟩
  intro h1 h2
  rw [itemEvents_filter_downloads c env u m h]
  simp [h1, h2]

/-- Witness for C4: the photo item attempts exactly the thumbnail
download (here failing), the video item exactly the video download. -/
theorem C4_download_dispatch_witness :
    (itemEvents clientTwoMedias envW "w" mediaPhoto).filter
      isDownloadAttempt =
      [.downloadAttempt "http://t/11.jpg" "w_11.jpg" false] ∧
    (itemEvents clientTwoMedias envW "w" mediaVideo).filter
      isDownloadAttempt =
      [.downloadAttempt "http://v/13.mp4" "w_13.mp4" true] := by
  have h1 := C4_download_dispatch clientTwoMedias envW "w" mediaPhoto rfl
  have h2 := C4_download_dispatch clientTwoMedias envW "w" mediaVideo rfl
  constructor
  · rw [h1.1]; rfl
  · rw [h2.1]; rfl

/-! ## Lemmas about `generate_csv_reports` -/

theorem string_append_left_cancel (u a b : String) (h : u ++ a = u ++ b) :
    a = b := by
  have hd := congrArg String.data h
  simp [String.data_append] at hd
  exact String.ext hd

theorem mem_csvCat (cond : Bool) (r : Except Err Unit) (p : String)
    (ev : Event) (h : ev ∈ (csvCat cond r p).2) :
    ev = .csvWrite p ∧ cond = true := by
  cases cond with
  | false => simp [csvCat] at h
  | true =>
    cases r with
    | error e => simp [csvCat] at h
    | ok v => simp [csvCat] at h; exact ⟨h, rfl⟩

theorem mem_seqE (a : Except Err Unit × List Event)
    (k : Unit → Except Err Unit × List Event) (ev : Event)
    (h : ev ∈ (seqE a k).2) : ev ∈ a.2 ∨ ev ∈ (k ()).2 := by
  rcases a with ⟨r, t⟩
  cases r with
  | error e => exact Or.inl (by simpa [seqE] using h)
  | ok v =>
    have h' : ev ∈ t ++ (k ()).2 := by simpa [seqE] using h
    exact List.mem_append.mp h'

theorem mem_csvBody (o : CsvOracle) (u : String) (data : J) (ev : Event)
    (h : ev ∈ (csvBody o u data).2) :
    (ev = .csvWrite (u ++ "_posts.csv") ∧
      optTruthy (getKey data "posts") = true) ∨
    (ev = .csvWrite (u ++ "_followers.csv") ∧
      optTruthy (getKey data "followers") = true) ∨
    (ev = .csvWrite (u ++ "_following.csv") ∧
      optTruthy (getKey data "following") = true) := by
  unfold csvBody at h
  rcases mem_seqE _ _ _ h with h | h
  · exact Or.inl (mem_csvCat _ _ _ _ h)
  · rcases mem_seqE _ _ _ h with h | h
    · exact Or.inr (Or.inl (mem_csvCat _ _ _ _ h))
    · exact Or.inr (Or.inr (mem_csvCat _ _ _ _ h))

theorem csv_path_ne_pf (u : String) :
    u ++ "_posts.csv" ≠ u ++ "_followers.csv" := by
  intro h
  exact absurd (string_append_left_cancel u _ _ h) (by decide)

theorem csv_path_ne_pg (u : String) :
    u ++ "_posts.csv" ≠ u ++ "_following.csv" := by
  intro h
  exact absurd (string_append_left_cancel u _ _ h) (by decide)

theorem csv_path_ne_fg (u : String) :
    u ++ "_followers.csv" ≠ u ++ "_following.csv" := by
  intro h
  exact absurd (string_append_left_cancel u _ _ h) (by decide)

/-- C6: `generate_csv_reports` is skip-safe: an empty posts / followers /
following sequence produces no CSV file for that category, the function
never raises (always `.ok`), and no event of its trace touches the
already-persisted JSON document. -/
theorem C6_csv_reports_skip_safe (o : CsvOracle) (u : String) (data : J) :
    ∃ t, generate_csv_reports o u data = .ok t ∧
      (getKey data "posts" = some (.arr []) →
        Event.csvWrite (u ++ "_posts.csv") ∉ t) ∧
      (getKey data "followers" = some (.arr []) →
        Event.csvWrite (u ++ "_followers.csv") ∉ t) ∧
      (getKey data "following" = some (.arr []) →
        Event.csvWrite (u ++ "_following.csv") ∉ t) ∧
      (∀ p d, Event.jsonDump p d ∉ t) := by
  refine ⟨(csvBody o u data).2, ?_, ?_, ?_, ?_, ?_⟩
  · rcases hb : csvBody o u data with ⟨r, t⟩
    cases r <;> simp [generate_csv_reports, hb]
  · intro hempty hmem
    rcases mem_csvBody o u data _ hmem with ⟨_, hc⟩ | ⟨he, _⟩ | ⟨he, _⟩
    · rw [hempty] at hc
      simp [optTruthy, jTruthy] at hc
    · exact csv_path_ne_pf u (by injection he)
    · exact csv_path_ne_pg u (by injection he)
  · intro hempty hmem
    rcases mem_csvBody o u data _ hmem with ⟨he, _⟩ | ⟨_, hc⟩ | ⟨he, _⟩
    · exact csv_path_ne_pf u (by injection he.symm)
    · rw [hempty] at hc
      simp [optTruthy, jTruthy] at hc
    · exact csv_path_ne_fg u (by injection he)
  · intro hempty hmem
    rcases mem_csvBody o u data _ hmem with ⟨he, _⟩ | ⟨he, _⟩ | ⟨_, hc⟩
    · exact csv_path_ne_pg u (by injection he.symm)
    · exact csv_path_ne_fg u (by injection he.symm)
    · rw [hempty] at hc
      simp [optTruthy, jTruthy] at hc
  · intro p d hmem
    rcases mem_csvBody o u data _ hmem with ⟨he, _⟩ | ⟨he, _⟩ | ⟨he, _⟩ <;>
      exact absurd he (by simp)

/-- Witness for C6 at a concrete oracle: all categories empty, no CSV
written, no exception, JSON untouched. -/
theorem C6_csv_reports_skip_safe_witness :
    ∃ t, generate_csv_reports csvAllOk "w" dataW = .ok t ∧
      Event.csvWrite ("w" ++ "_posts.csv") ∉ t ∧
      Event.csvWrite ("w" ++ "_followers.csv") ∉ t ∧
      (∀ p d, Event.jsonDump p d ∉ t) := by
  obtain ⟨t, h1, h2, h3, h4, h5⟩ := C6_csv_reports_skip_safe csvAllOk "w" dataW
  exact ⟨t, h1, h2 rfl, h3 rfl, h5⟩

/-- C7: for every successful extraction, the document persisted to JSON is
exactly the value returned by `extract_user_data` (the trace holds exactly
one JSON dump, of that value, at `json_data/{username}_data.json`), so the
posts / followers / following counts printed by `main`'s summary equal the
lengths of the corresponding sequences of the persisted document, and the
document carries exactly the data model's fields for each entity type. -/
theorem C7_persisted_document_matches (c : Client) (env : Env) (u : String)
    (data : J) (t : List Event)
    (h : extract_user_data c env u = (some data, t)) :
    Event.jsonDump (jsonDataPath u) data ∈ t ∧
    (∀ p d, Event.jsonDump p d ∈ t → p = jsonDataPath u ∧ d = data) ∧
    ∃ ui ps fs gs,
      getKey data "user_info" = some ui ∧
      getKey data "posts" = some (.arr ps) ∧
      getKey data "followers" = some (.arr fs) ∧
      getKey data "following" = some (.arr gs) ∧
      summaryCounts data = (12, ps.length, fs.length, gs.length) ∧
      jKeys data =
        ["user_info", "posts", "followers", "following",
         "extraction_timestamp"] ∧
      jKeys ui =
        ["pk", "username", "full_name", "biography", "external_url",
         "follower_count", "following_count", "media_count", "is_private",
         "is_verified", "profile_pic_url", "extracted_at"] ∧
      (∀ p ∈ ps,
        jKeys p = ["id", "code", "taken_at", "media_type", "caption",
          "like_count", "comment_count", "play_count", "thumbnail_url",
          "resources"] ∨
        jKeys p = ["id", "code", "taken_at", "media_type", "caption",
          "like_count", "comment_count", "play_count", "thumbnail_url",
          "resources", "local_file"]) ∧
      (∀ r ∈ fs,
        jKeys r = ["pk", "username", "full_name", "is_private",
          "is_verified", "follower_count", "following_count",
          "profile_pic_url"]) ∧
      (∀ r ∈ gs,
        jKeys r = ["pk", "username", "full_name", "is_private",
          "is_verified", "follower_count", "following_count",
          "profile_pic_url"]) := by
  rcases hi : c.user_info_by_username u with e | ru
  · rw [extract_user_data] at h
    simp [get_user_info, hi] at h
  · rw [extract_user_data] at h
    simp only [get_user_info, hi] at h
    have hd : data =
        .obj [("user_info", userInfoJson ru c.nowInfo),
              ("posts", .arr (get_user_posts c env u).1),
              ("followers", .arr (get_followers c env u).1),
              ("following", .arr (get_following c env u).1),
              ("extraction_timestamp", .s c.nowExtract)] :=
      (Option.some.inj (congrArg Prod.fst h)).symm
    have ht : t =
        [Event.sleep (env.request_delay : Rat)] ++
        (Event.call .posts :: (get_user_posts c env u).2) ++
        (Event.call .followers :: (get_followers c env u).2) ++
        (Event.call .following :: (get_following c env u).2) ++
        [Event.jsonDump (jsonDataPath u)
          (.obj [("user_info", userInfoJson ru c.nowInfo),
                 ("posts", .arr (get_user_posts c env u).1),
                 ("followers", .arr (get_followers c env u).1),
                 ("following", .arr (get_following c env u).1),
                 ("extraction_timestamp", .s c.nowExtract)])] :=
      (congrArg Prod.snd h).symm
    subst hd
    subst ht
    refine ⟨by simp, ?_, ?_⟩
    · intro p d hm
      rcases List.mem_append.mp hm with hm | hm
      · rcases List.mem_append.mp hm with hm | hm
        · rcases List.mem_append.mp hm with hm | hm
          · rcases List.mem_append.mp hm with hm | hm
            · simp at hm
            · rcases List.mem_cons.mp hm with hm | hm
              · simp at hm
              · exact absurd hm
                  (jsonDump_not_mem_get_user_posts c env u 100 p d)
          · rcases List.mem_cons.mp hm with hm | hm
            · simp at hm
            · have := mem_get_followers_events c env u 1000 _ hm
              simp at this
        · rcases List.mem_cons.mp hm with hm | hm
          · simp at hm
          · have := mem_get_following_events c env u 1000 _ hm
            simp at this
      · simp at hm
        exact ⟨hm.1, hm.2⟩
    · refine ⟨userInfoJson ru c.nowInfo, (get_user_posts c env u).1,
        (get_followers c env u).1, (get_following c env u).1,
        rfl, rfl, rfl, rfl, rfl, rfl, rfl, ?_, ?_, ?_⟩
      · intro p hp
        obtain ⟨m, rfl⟩ := get_user_posts_mem_itemPost c env u 100 p hp
        exact jKeys_itemPost c env u m
      · intro r hr
        obtain ⟨info, rfl⟩ := get_followers_mem_relJson c env u 1000 r hr
        exact jKeys_relJson info
      · intro r hr
        obtain ⟨info, rfl⟩ := get_following_mem_relJson c env u 1000 r hr
        exact jKeys_relJson info

/-- Witness for C7 at a concrete successful run. -/
theorem C7_persisted_document_matches_witness :
    extract_user_data clientOkEmpty envW "w" = (some dataW, traceW) ∧
    Event.jsonDump (jsonDataPath "w") dataW ∈ traceW ∧
    summaryCounts dataW = (12, 0, 0, 0) := by
  have hrun : extract_user_data clientOkEmpty envW "w" =
      (some dataW, traceW) := rfl
  have h := C7_persisted_document_matches clientOkEmpty envW "w" dataW
    traceW hrun
  refine ⟨hrun, h.1, ?_⟩
  obtain ⟨ui, ps, fs, gs, h1, h2, h3, h4, h5, _⟩ := h.2.2
  have hps : ps = [] := by
    have : some (J.arr ps) = some (J.arr []) := by rw [← h2]; rfl
    simpa using this
  have hfs : fs = [] := by
    have : some (J.arr fs) = some (J.arr []) := by rw [← h3]; rfl
    simpa using this
  have hgs : gs = [] := by
    have : some (J.arr gs) = some (J.arr []) := by rw [← h4]; rfl
    simpa using this
  rw [hps, hfs, hgs] at h5
  simpa using h5

/-- C8: `get_followers` and `get_following` default their limit to 1000,
iterate the platform-returned mapping in its returned order building one
record per entry, sleep exactly half the post collector's per-item delay
between items (their traces consist of such sleeps only, so nothing is
persisted by them), and on any total failure return the empty sequence. -/
theorem C8_relationship_collectors (c : Client) (env : Env) (u : String)
    (lim limP : Nat) :
    (get_followers c env u = get_followers c env u 1000 ∧
     get_following c env u = get_following c env u 1000) ∧
    (∀ uid pairs, c.user_id_from_username u = .ok uid →
      c.user_followers uid lim = .ok pairs →
      (∀ p ∈ pairs, p.2.attr_error = false) →
      (get_followers c env u lim).1 = pairs.map (fun p => relJson p.2)) ∧
    (∀ uid pairs, c.user_id_from_username u = .ok uid →
      c.user_following uid lim = .ok pairs →
      (∀ p ∈ pairs, p.2.attr_error = false) →
      (get_following c env u lim).1 = pairs.map (fun p => relJson p.2)) ∧
    (∀ e ∈ (get_followers c env u lim).2,
      e = .sleep ((env.request_delay : Rat) / 2)) ∧
    (∀ e ∈ (get_following c env u lim).2,
      e = .sleep ((env.request_delay : Rat) / 2)) ∧
    (∀ q q', Event.sleep q ∈ (get_followers c env u lim).2 →
      Event.sleep q' ∈ (get_user_posts c env u limP).2 → q = q' / 2) ∧
    (∀ e, c.user_id_from_username u = .error e →
      get_followers c env u lim = ([], []) ∧
      get_following c env u lim = ([], [])) ∧
    (∀ uid e, c.user_id_from_username u = .ok uid →
      c.user_followers uid lim = .error e →
      get_followers c env u lim = ([], [])) ∧
    (∀ uid e, c.user_id_from_username u = .ok uid →
      c.user_following uid lim = .error e →
      get_following c env u lim = ([], [])) ∧
    (∀ uid pairs p, c.user_id_from_username u = .ok uid →
      c.user_followers uid lim = .ok pairs → p ∈ pairs →
      p.2.attr_error = true → (get_followers c env u lim).1 = []) ∧
    (∀ uid pairs p, c.user_id_from_username u = .ok uid →
      c.user_following uid lim = .ok pairs → p ∈ pairs →
      p.2.attr_error = true → (get_following c env u lim).1 = []) := by
  refine ⟨⟨rfl, rfl⟩, ?_, ?_, ?_, ?_, ?_, ?_, ?_, ?_, ?_, ?_⟩
  · intro uid pairs hid hp hall
    exact get_followers_fst_ok c env u lim uid pairs hid hp hall
  · intro uid pairs hid hp hall
    exact get_following_fst_ok c env u lim uid pairs hid hp hall
  · exact fun e he => mem_get_followers_events c env u lim e he
  · exact fun e he => mem_get_following_events c env u lim e he
  · intro q q' hf hpst
    have h1 := mem_get_followers_events c env u lim _ hf
    have h2 := sleep_mem_get_user_posts c env u limP q' hpst
    have hq : q = (env.request_delay : Rat) / 2 := by
      injection h1
    rw [hq, h2]
  · intro e he
    constructor <;> simp [get_followers, get_following, he]
  · intro uid e hid hp
    simp [get_followers, hid, hp]
  · intro uid e hid hp
    simp [get_following, hid, hp]
  · intro uid pairs p hid hp hmem ha
    obtain ⟨e, he⟩ := relLoop_error_of_attr env pairs p hmem ha
    rcases hr : relLoop env pairs with ⟨r, evs⟩
    rw [hr] at he
    simp only at he
    subst he
    simp [get_followers, hid, hp, hr]
  · intro uid pairs p hid hp hmem ha
    obtain ⟨e, he⟩ := relLoop_error_of_attr env pairs p hmem ha
    rcases hr : relLoop env pairs with ⟨r, evs⟩
    rw [hr] at he
    simp only at he
    subst he
    simp [get_following, hid, hp, hr]

/-- Witness for C8: one follower is returned in order, the following call
fails totally and yields the empty list, and the per-item delay is half of
`REQUEST_DELAY`. -/
theorem C8_relationship_collectors_witness :
    (get_followers clientOneFollower envW "w" 1000).1 = [relJson followerA] ∧
    get_following clientOneFollower envW "w" 1000 = ([], []) ∧
    (∀ e ∈ (get_followers clientOneFollower envW "w" 1000).2,
      e = .sleep ((envW.request_delay : Rat) / 2)) := by
  have h := C8_relationship_collectors clientOneFollower envW "w" 1000 100
  refine ⟨?_, ?_, ?_⟩
  · have := h.2.1 42 [(501, followerA)] rfl rfl
      (by intro p hp
          rcases List.mem_cons.mp hp with h' | h'
          · rw [h']; rfl
          · simp at h')
    simpa using this
  · exact h.2.2.2.2.2.2.2.2.1 42 (.other "private account") rfl rfl
  · exact h.2.2.2.1

end IGX
